import Mathlib

/-!
Verification development for the SR-bot storage-rent collector.

Shallow embedding of the core services:
  * `calculateRentFee`, `minAcceptableValue`, `isEligibleByValue` — the fee
    model (transactionService.calculateRentFee and the value check inlined in
    ergoNode.scanForEligibleBoxes);
  * `buildStorageRentTransaction` — transactionService.buildStorageRentTransaction;
  * `scanForEligibleBoxes` — ergoNode.scanForEligibleBoxes (the paginated,
    cursor-resumable scan);
  * `promoteEligible`, `runScanAndProcess`, `processEligibleBoxes`,
    `processBatch`, `createTransactionBatches` — storageRentBot orchestration;
  * `monitorTransactionConfirmation` — the bounded confirmation poller;
  * `validateBoxes`, `fromUnsigned` — validation stub and sign-and-submit.

JavaScript `bigint` values are embedded as `Int`; block heights and counts as
`Nat`.  External collaborators (the remote node, the signer, the database) are
passed in as explicit environment records; a `none` / `Except.error` outcome of
a collaborator field models the corresponding call throwing.  Thrown JS
exceptions are modelled by `Except.error`; `try`/`catch` blocks that swallow an
exception are modelled by total functions returning the caught-branch value.
-/

/-- A token held by a box. -/
structure Asset where
  tokenId : String
  amount : Int
deriving DecidableEq, Repr

/-- An eligible box as produced by the scanner (types.EligibleBox).
`discoveredAt` (a wall-clock Date) is omitted; it is never read. -/
structure EligibleBox where
  boxId : String
  creationHeight : Nat
  boxSize : Nat
  value : Int
  rentFee : Int
  status : String
  ergoTree : String
  assets : List Asset
  additionalRegisters : List (String × String)
deriving DecidableEq, Repr

/-- The in-memory height-bucket queue: JS `Map<number, EligibleBox[]>` in
insertion order, embedded as an association list. -/
abbrev BoxesByHeight := List (Nat × List EligibleBox)

/-! ## Fee model -/

/-- transactionService.calculateRentFee: `BigInt(boxSize * rentFeePerByte)`. -/
def calculateRentFee (boxSize rentFeePerByte : Nat) : Int :=
  ((boxSize * rentFeePerByte : Nat) : Int)

/-- The minimum-value threshold `BigInt(minBoxValuePerByte * boxSize)` as
computed inline in ergoNode.scanForEligibleBoxes. -/
def minAcceptableValue (boxSize minValuePerByte : Nat) : Int :=
  ((minValuePerByte * boxSize : Nat) : Int)

/-- The value-eligibility check inlined in ergoNode.scanForEligibleBoxes:
`boxValue >= rentFee + BigInt(minBoxValuePerByte * boxSize)`. -/
def isEligibleByValue (boxValue rentFee minAcceptable : Int) : Bool :=
  rentFee + minAcceptable ≤ boxValue

/-! ## Transaction construction (transactionService.buildStorageRentTransaction) -/

/-- The errors thrown by buildStorageRentTransaction, in source order. -/
inductive BuildError where
  /-- Thrown as "Box ... not found or already spent" and re-thrown as
  "Failed to create Fleet SDK input for ...". -/
  | boxNotFound (boxId : String)
  /-- Thrown as "Insufficient fee available from claimed boxes." -/
  | insufficientFeeAvailable
  /-- Thrown as "Not enough rent collected to pay transaction fee." -/
  | insufficientRent
deriving DecidableEq, Repr

/-- The value content of the unsigned transaction assembled by
buildStorageRentTransaction: the recreated output per input box, the
rent-collection (change) output, and the network fee. -/
structure BuiltTx where
  inputs : List EligibleBox
  outputValues : List Int
  changeValue : Int
  fee : Int
  totalRentCollected : Int
deriving DecidableEq, Repr

/-- The input-resolution loop of buildStorageRentTransaction: each box id is
fetched from the node (`ergoNode.getBoxById`); a missing box throws at the
first failure.  `getBoxById boxId = false` models the node returning null. -/
def resolveInputs (getBoxById : String → Bool) : List EligibleBox → Except BuildError (List EligibleBox)
  | [] => .ok []
  | b :: rest =>
    if getBoxById b.boxId then
      match resolveInputs getBoxById rest with
      | .ok bs => .ok (b :: bs)
      | .error e => .error e
    else .error (.boxNotFound b.boxId)

/-- transactionService.buildStorageRentTransaction (Fleet SDK variant,
src/services/transactionService.ts lines 41-168).  `networkFee` models the
external Fleet SDK constant `RECOMMENDED_MIN_FEE_VALUE`, which is not part of
the repository; the function uses it uniformly for the fee and the
rent-after-fee computation.  `changeAddress` and `currentHeight` are kept as
parameters for fidelity although the value bookkeeping does not read them. -/
def buildStorageRentTransaction (getBoxById : String → Bool) (networkFee : Int)
    (boxes : List EligibleBox) (changeAddress : String) (currentHeight : Nat) :
    Except BuildError BuiltTx :=
  let totalRentCollected := (boxes.map (fun b => b.rentFee)).sum
  match resolveInputs getBoxById boxes with
  | .error e => .error e
  | .ok fleetInputs =>
    let outputs := boxes.map (fun b => b.value - b.rentFee)
    let totalInputValue := (boxes.map (fun b => b.value)).sum
    let rentAfterFee := totalRentCollected - networkFee
    let totalOutputValue := outputs.sum + rentAfterFee
    let availableForFee := totalInputValue - totalOutputValue
    if availableForFee < networkFee then .error .insufficientFeeAvailable
    else if rentAfterFee ≤ 0 then .error .insufficientRent
    else .ok { inputs := fleetInputs
               outputValues := outputs
               changeValue := rentAfterFee
               fee := networkFee
               totalRentCollected := totalRentCollected }

/-- Sum of the per-box recreated output values, split into box values minus
rent fees. -/
lemma sum_map_value_sub_rent (l : List EligibleBox) :
    (l.map (fun b => b.value - b.rentFee)).sum
      = (l.map (fun b => b.value)).sum - (l.map (fun b => b.rentFee)).sum := by
  induction l with
  | nil => simp
  | cons b rest ih => simp [ih]; ring

/-- If every box id resolves on the node, the input-resolution loop succeeds
and returns the boxes unchanged. -/
lemma resolveInputs_ok (getBoxById : String → Bool) (boxes : List EligibleBox)
    (h : ∀ b ∈ boxes, getBoxById b.boxId = true) :
    resolveInputs getBoxById boxes = .ok boxes := by
  induction boxes with
  | nil => rfl
  | cons b rest ih =>
    have hb : getBoxById b.boxId = true := h b (List.mem_cons_self b rest)
    have hrest : resolveInputs getBoxById rest = .ok rest :=
      ih (fun x hx => h x (List.mem_cons_of_mem b hx))
    simp [resolveInputs, hb, hrest]

/-- In buildStorageRentTransaction the slack available for the fee,
`totalInputValue - totalOutputValue`, is always exactly the network fee. -/
lemma availableForFee_eq (networkFee : Int) (boxes : List EligibleBox) :
    (boxes.map (fun b => b.value)).sum
        - ((boxes.map (fun b => b.value - b.rentFee)).sum
            + ((boxes.map (fun b => b.rentFee)).sum - networkFee))
      = networkFee := by
  rw [sum_map_value_sub_rent]; ring

/-- Under full input resolution, buildStorageRentTransaction reduces to the
rent-funds-fee policy: it fails with insufficientRent exactly when the
collected rent does not exceed the network fee, and otherwise succeeds with
the recreated outputs and the rent-minus-fee change output.  (The
availableForFee check never fires: the slack is always exactly the fee.) -/
lemma build_eq_of_resolve (getBoxById : String → Bool) (networkFee : Int)
    (boxes : List EligibleBox) (changeAddress : String) (currentHeight : Nat)
    (hres : ∀ b ∈ boxes, getBoxById b.boxId = true) :
    buildStorageRentTransaction getBoxById networkFee boxes changeAddress currentHeight
      = if (boxes.map (fun b => b.rentFee)).sum ≤ networkFee then .error .insufficientRent
        else .ok { inputs := boxes
                   outputValues := boxes.map (fun b => b.value - b.rentFee)
                   changeValue := (boxes.map (fun b => b.rentFee)).sum - networkFee
                   fee := networkFee
                   totalRentCollected := (boxes.map (fun b => b.rentFee)).sum } := by
  have hr := resolveInputs_ok getBoxById boxes hres
  simp only [buildStorageRentTransaction, hr]
  have h1 : ¬ ((boxes.map (fun b => b.value)).sum
      - ((boxes.map (fun b => b.value - b.rentFee)).sum
          + ((boxes.map (fun b => b.rentFee)).sum - networkFee)) < networkFee) := by
    rw [availableForFee_eq]
    exact lt_irrefl networkFee
  rw [if_neg h1]
  by_cases h2 : (boxes.map (fun b => b.rentFee)).sum - networkFee ≤ 0
  · rw [if_pos h2, if_pos (by omega)]
  · rw [if_neg h2, if_neg (by omega)]

/-- C1: for every non-empty list of boxes for which buildStorageRentTransaction
succeeds, the unsigned transaction is balanced: the sum of the input box values
equals the sum of the output values plus the network fee, the outputs being one
recreated output per input box with value `box.value - box.rentFee` plus one
change output worth the collected rent minus the fee. -/
theorem build_balanced (getBoxById : String → Bool) (networkFee : Int)
    (boxes : List EligibleBox) (changeAddress : String) (currentHeight : Nat)
    (tx : BuiltTx) (hne : boxes ≠ [])
    (hok : buildStorageRentTransaction getBoxById networkFee boxes changeAddress currentHeight
            = .ok tx) :
    (boxes.map (fun b => b.value)).sum = (tx.outputValues.sum + tx.changeValue) + tx.fee ∧
    tx.outputValues = boxes.map (fun b => b.value - b.rentFee) ∧
    tx.changeValue = (boxes.map (fun b => b.rentFee)).sum - networkFee := by
  unfold buildStorageRentTransaction at hok
  cases hres : resolveInputs getBoxById boxes with
  | error e => rw [hres] at hok; cases hok
  | ok bs =>
    rw [hres] at hok
    simp only at hok
    split at hok
    · cases hok
    · split at hok
      · cases hok
      · cases hok
        refine ⟨?_, rfl, rfl⟩
        simp only [sum_map_value_sub_rent]
        ring

def c1Box : EligibleBox :=
  { boxId := "b1", creationHeight := 100, boxSize := 105, value := 5000000,
    rentFee := 2000000, status := "pending", ergoTree := "tree", assets := [],
    additionalRegisters := [] }

def c1Tx : BuiltTx :=
  { inputs := [c1Box], outputValues := [3000000], changeValue := 1000000,
    fee := 1000000, totalRentCollected := 2000000 }

/-- Witness for C1 at a concrete one-box batch. -/
theorem build_balanced_witness :
    ([c1Box] ≠ ([] : List EligibleBox)) ∧
    ([c1Box].map (fun b => b.value)).sum = (c1Tx.outputValues.sum + c1Tx.changeValue) + c1Tx.fee :=
  ⟨by decide,
   (build_balanced (fun _ => true) 1000000 [c1Box] ("addr") 1000 c1Tx (by decide) (by rfl)).1⟩

/-- C2: under the rent-funds-fee policy, whenever every input resolves on the
node, buildStorageRentTransaction credits exactly
`totalRentCollected - networkFee` to the change address, and fails with the
insufficient-rent error if and only if `totalRentCollected ≤ networkFee`. -/
theorem build_rent_funds_fee (getBoxById : String → Bool) (networkFee : Int)
    (boxes : List EligibleBox) (changeAddress : String) (currentHeight : Nat)
    (hres : ∀ b ∈ boxes, getBoxById b.boxId = true) :
    (buildStorageRentTransaction getBoxById networkFee boxes changeAddress currentHeight
        = .error .insufficientRent
      ↔ (boxes.map (fun b => b.rentFee)).sum ≤ networkFee) ∧
    (∀ tx, buildStorageRentTransaction getBoxById networkFee boxes changeAddress currentHeight
        = .ok tx → tx.changeValue = (boxes.map (fun b => b.rentFee)).sum - networkFee) := by
  rw [build_eq_of_resolve getBoxById networkFee boxes changeAddress currentHeight hres]
  by_cases h : (boxes.map (fun b => b.rentFee)).sum ≤ networkFee
  · rw [if_pos h]
    exact ⟨by simp [h], by intro tx htx; cases htx⟩
  · rw [if_neg h]
    constructor
    · simp [h]
    · intro tx htx
      cases htx
      rfl

def c2BoxA : EligibleBox :=
  { boxId := "a", creationHeight := 100, boxSize := 105, value := 400000000,
    rentFee := 100000000, status := "pending", ergoTree := "t1", assets := [],
    additionalRegisters := [] }

def c2BoxB : EligibleBox :=
  { boxId := "b", creationHeight := 101, boxSize := 105, value := 300000000,
    rentFee := 50000000, status := "pending", ergoTree := "t2", assets := [],
    additionalRegisters := [] }

def c2SmallA : EligibleBox := { c2BoxA with rentFee := 400000 }

def c2SmallB : EligibleBox := { c2BoxB with rentFee := 400000 }

/-- Witness for C2: the spec scenario — rent fees 100,000,000 and 50,000,000
with network fee 1,000,000 give a 149,000,000 change output, and two 400,000
rent fees fail with insufficient rent. -/
theorem build_rent_funds_fee_witness :
    (∀ b ∈ [c2BoxA, c2BoxB], (fun _ : String => true) b.boxId = true) ∧
    (∀ tx, buildStorageRentTransaction (fun _ => true) 1000000 [c2BoxA, c2BoxB] ("chg") 1000
        = .ok tx → tx.changeValue = 149000000) ∧
    buildStorageRentTransaction (fun _ => true) 1000000 [c2SmallA, c2SmallB] ("chg") 1000
      = .error .insufficientRent := by
  refine ⟨by intro b _; rfl, ?_, ?_⟩
  · intro tx htx
    have h := (build_rent_funds_fee (fun _ => true) 1000000 [c2BoxA, c2BoxB] ("chg") 1000
        (by intro b _; rfl)).2 tx htx
    simpa using h
  · exact (build_rent_funds_fee (fun _ => true) 1000000 [c2SmallA, c2SmallB] ("chg") 1000
        (by intro b _; rfl)).1.mpr (by decide)

/-- C7: the fee model is exact integer arithmetic: the rent fee is
`encodedSize * feePerByte`, the minimum acceptable value is
`minValuePerByte * encodedSize`, and a box is value-eligible exactly when its
value is at least their sum. -/
theorem feeModel_exact (encodedSize feePerByte minValuePerByte : Nat) (boxValue : Int) :
    calculateRentFee encodedSize feePerByte = (encodedSize : Int) * feePerByte ∧
    minAcceptableValue encodedSize minValuePerByte = (minValuePerByte : Int) * encodedSize ∧
    (isEligibleByValue boxValue (calculateRentFee encodedSize feePerByte)
        (minAcceptableValue encodedSize minValuePerByte) = true
      ↔ (encodedSize : Int) * feePerByte + (minValuePerByte : Int) * encodedSize ≤ boxValue) := by
  refine ⟨by simp [calculateRentFee], by simp [minAcceptableValue], ?_⟩
  simp [isEligibleByValue, calculateRentFee, minAcceptableValue]

/-- Witness for C7: the spec scenario — encodedSize 105, feePerByte 1,250,000,
minValuePerByte 360, value 500,000,000. -/
theorem feeModel_exact_witness :
    calculateRentFee 105 1250000 = 131250000 ∧
    minAcceptableValue 105 360 = 37800 ∧
    isEligibleByValue 500000000 (calculateRentFee 105 1250000) (minAcceptableValue 105 360) = true :=
  ⟨by decide, by decide,
   (feeModel_exact 105 1250000 360 500000000).2.2.mpr (by decide)⟩

/-! ## The paginated scan (ergoNode.scanForEligibleBoxes, offset-range variant)

The remote node is the collaborator boundary: `index` is the node's global,
position-addressed box-id index served by `/blockchain/box/range`; `fetchBox`
is `/blockchain/box/byId` (`none` models the per-box fetch throwing, which the
source logs and skips); `pageOk offset = false` models the range request at
that offset throwing (the source logs it, steps the offset down one page and
continues).  The unbounded `while` loop is given explicit fuel. -/

structure NodeBox where
  boxId : String
  creationHeight : Nat
  spent : Bool
  value : Int
  ergoTree : String
  assets : List Asset
  additionalRegisters : List (String × String)
  /-- The encoded size reported by the external Fleet SDK `estimateBoxSize`
  (ergoNode.calculateBoxSize); external, so modelled as data. -/
  encodedSize : Nat
deriving DecidableEq, Repr

structure ScanEnv where
  index : List String
  fetchBox : String → Option NodeBox
  pageOk : Int → Bool
  rentFeePerByte : Nat
  minBoxValuePerByte : Nat

/-- The hard-coded page size of the range walk (`batchSize = 1000`). -/
def scanBatchSize : Nat := 1000

/-- The range endpoint with the given offset and limit: the slice of the
global box-id index starting at `offset`. -/
def boxRange (env : ScanEnv) (offset : Int) (limit : Nat) : List String :=
  if offset < 0 then [] else (env.index.drop offset.toNat).take limit

/-- ergoNode.calculateBoxSize: delegates to the external `estimateBoxSize`,
modelled as the `encodedSize` the node data carries. -/
def calculateBoxSize (box : NodeBox) : Nat := box.encodedSize

/-- Outcome of processing the ids of one fetched page: either the target count
was reached (early return with the final cursor) or the page was exhausted. -/
inductive PageResult where
  | done (buckets : BoxesByHeight) (nextOffset : Int)
  | more (buckets : BoxesByHeight) (found : Nat)
deriving DecidableEq, Repr

/-- The buckets carried by either outcome. -/
def PageResult.buckets : PageResult → BoxesByHeight
  | .done b _ => b
  | .more b _ => b

/-- Insertion into boxesByHeight: JS `Map.get(height).push(box)`, creating
the bucket at the end of the map when the key is new. -/
def bucketInsert : BoxesByHeight → Nat → EligibleBox → BoxesByHeight
  | [], h, b => [(h, [b])]
  | (h2, bs) :: rest, h, b =>
    if h2 = h then (h2, bs ++ [b]) :: rest else (h2, bs) :: bucketInsert rest h b

/-- The per-page loop body of scanForEligibleBoxes: walk the (reversed) page
ids; skip a box whose fetch throws, a spent box, and a box more than 1000
blocks from eligibility; bucket a value-eligible box under its creation
height; on reaching the target count return early with
`nextOffset = offset - (batchSize - pageIds.indexOf boxId)`. -/
def processPage (env : ScanEnv) (currentHeight minAge targetBoxCount : Nat) (offset : Int)
    (pageIds : List String) : List String → BoxesByHeight → Nat → PageResult
  | [], buckets, found => .more buckets found
  | boxId :: rest, buckets, found =>
    match env.fetchBox boxId with
    | none => processPage env currentHeight minAge targetBoxCount offset pageIds rest buckets found
    | some box =>
      if box.spent then
        processPage env currentHeight minAge targetBoxCount offset pageIds rest buckets found
      else
        let blocksUntilEligible : Int := ((box.creationHeight : Int) + minAge) - currentHeight
        if 1000 < blocksUntilEligible then
          processPage env currentHeight minAge targetBoxCount offset pageIds rest buckets found
        else
          let boxSize := calculateBoxSize box
          let rentFee : Int := ((boxSize * env.rentFeePerByte : Nat) : Int)
          if isEligibleByValue box.value rentFee ((env.minBoxValuePerByte * boxSize : Nat) : Int) then
            let eligibleBox : EligibleBox :=
              { boxId := box.boxId, creationHeight := box.creationHeight, boxSize := boxSize,
                value := box.value, rentFee := rentFee,
                status := if blocksUntilEligible ≤ 0 then "pending" else "queued",
                ergoTree := box.ergoTree, assets := box.assets,
                additionalRegisters := box.additionalRegisters }
            let buckets2 := bucketInsert buckets box.creationHeight eligibleBox
            if targetBoxCount ≤ found + 1 then
              .done buckets2 (offset - ((scanBatchSize : Int) - ((List.indexOf boxId pageIds : Nat) : Int)))
            else
              processPage env currentHeight minAge targetBoxCount offset pageIds rest buckets2 (found + 1)
          else
            processPage env currentHeight minAge targetBoxCount offset pageIds rest buckets found

/-- The outer `while (totalBoxesFound < targetBoxCount)` loop: fetch a page
(on a page-fetch failure, log, step the offset down one page and continue),
reverse it, process its ids; stop on an empty page or when the target is
reached.  `fuel` bounds the otherwise unbounded walk. -/
def scanLoop (env : ScanEnv) (currentHeight minAge targetBoxCount : Nat) :
    Nat → Int → Int → BoxesByHeight → Nat → BoxesByHeight × Int
  | 0, _, nextOffset, buckets, _ => (buckets, nextOffset)
  | fuel + 1, offset, nextOffset, buckets, found =>
    if targetBoxCount ≤ found then (buckets, nextOffset)
    else if env.pageOk offset then
      let pageIds := (boxRange env offset scanBatchSize).reverse
      if pageIds.isEmpty then (buckets, nextOffset)
      else
        match processPage env currentHeight minAge targetBoxCount offset pageIds pageIds buckets found with
        | .done buckets2 nextOffset2 => (buckets2, nextOffset2)
        | .more buckets2 found2 =>
          scanLoop env currentHeight minAge targetBoxCount fuel (offset - (scanBatchSize : Int))
            (offset - (scanBatchSize : Int)) buckets2 found2
    else
      scanLoop env currentHeight minAge targetBoxCount fuel (offset - (scanBatchSize : Int))
        (offset - (scanBatchSize : Int)) buckets found

/-- ergoNode.scanForEligibleBoxes: resumable scan returning the height-bucketed
boxes and the next cursor.  A zero start offset is replaced by the hard-coded
44,160,000 starting point; the returned cursor starts as `startOffset`. -/
def scanForEligibleBoxes (env : ScanEnv) (currentHeight minAge : Nat) (startOffset : Int)
    (targetBoxCount : Nat) (fuel : Nat) : BoxesByHeight × Int :=
  let offset : Int := if startOffset = 0 then 44160000 else startOffset
  scanLoop env currentHeight minAge targetBoxCount fuel offset startOffset [] 0

/-- All box ids in a height-bucket map, in bucket order. -/
def queuedBoxIds (q : BoxesByHeight) : List String :=
  q.foldr (fun p acc => p.2.map (fun b => b.boxId) ++ acc) []

/-- Every box sits in the bucket keyed by its creation height. -/
def bucketsWellKeyed (q : BoxesByHeight) : Prop :=
  ∀ h bs, (h, bs) ∈ q → ∀ b ∈ bs, b.creationHeight = h

lemma bucketsWellKeyed_nil : bucketsWellKeyed [] := by
  intro h bs hmem
  cases hmem

lemma bucketInsert_wellKeyed (q : BoxesByHeight) (h : Nat) (b : EligibleBox)
    (hq : bucketsWellKeyed q) (hb : b.creationHeight = h) :
    bucketsWellKeyed (bucketInsert q h b) := by
  induction q with
  | nil =>
    intro h2 bs hmem b2 hb2
    simp only [bucketInsert, List.mem_singleton, Prod.mk.injEq] at hmem
    obtain ⟨rfl, rfl⟩ := hmem
    simp only [List.mem_singleton] at hb2
    subst hb2
    exact hb
  | cons hd tl ih =>
    obtain ⟨h3, bs3⟩ := hd
    have htl : bucketsWellKeyed tl := by
      intro h2 bs hmem b2 hb2
      exact hq h2 bs (List.mem_cons_of_mem _ hmem) b2 hb2
    intro h2 bs hmem b2 hb2
    by_cases heq : h3 = h
    · rw [bucketInsert, if_pos heq] at hmem
      rcases List.mem_cons.mp hmem with hhead | htail
      · obtain ⟨rfl, rfl⟩ := Prod.mk.injEq .. ▸ hhead
        rcases List.mem_append.mp hb2 with hin | hone
        · exact hq h2 bs3 (List.mem_cons_self _ _) b2 hin
        · simp only [List.mem_singleton] at hone
          subst hone
          rw [hb, heq]
      · exact hq h2 bs (List.mem_cons_of_mem _ htail) b2 hb2
    · rw [bucketInsert, if_neg heq] at hmem
      rcases List.mem_cons.mp hmem with hhead | htail
      · obtain ⟨rfl, rfl⟩ := Prod.mk.injEq .. ▸ hhead
        exact hq h2 bs (List.mem_cons_self _ _) b2 hb2
      · exact ih htl h2 bs htail b2 hb2

lemma processPage_wellKeyed (env : ScanEnv) (cur minAge target : Nat) (offset : Int)
    (pageIds : List String) :
    ∀ (ids : List String) (buckets : BoxesByHeight) (found : Nat),
      bucketsWellKeyed buckets →
      bucketsWellKeyed (processPage env cur minAge target offset pageIds ids buckets found).buckets := by
  intro ids
  induction ids with
  | nil =>
    intro buckets found hq
    simpa only [processPage, PageResult.buckets] using hq
  | cons boxId rest ih =>
    intro buckets found hq
    simp only [processPage]
    cases hfb : env.fetchBox boxId with
    | none => exact ih buckets found hq
    | some box =>
      simp only []
      split
      · exact ih buckets found hq
      · split
        · exact ih buckets found hq
        · split
          · split
            · simp only [PageResult.buckets]
              exact bucketInsert_wellKeyed buckets box.creationHeight _ hq rfl
            · exact ih _ _ (bucketInsert_wellKeyed buckets box.creationHeight _ hq rfl)
          · exact ih buckets found hq

lemma scanLoop_wellKeyed (env : ScanEnv) (cur minAge target : Nat) :
    ∀ (fuel : Nat) (offset nextOffset : Int) (buckets : BoxesByHeight) (found : Nat),
      bucketsWellKeyed buckets →
      bucketsWellKeyed (scanLoop env cur minAge target fuel offset nextOffset buckets found).1 := by
  intro fuel
  induction fuel with
  | zero =>
    intro offset nextOffset buckets found hq
    simpa only [scanLoop] using hq
  | succ fuel ih =>
    intro offset nextOffset buckets found hq
    simp only [scanLoop]
    split
    · simpa using hq
    · split
      · split
        · simpa using hq
        · split
          · rename_i b2 n2 hpp
            have hw := processPage_wellKeyed env cur minAge target offset
              ((boxRange env offset scanBatchSize).reverse)
              ((boxRange env offset scanBatchSize).reverse) buckets found hq
            rw [hpp] at hw
            simpa only [PageResult.buckets] using hw
          · rename_i b2 f2 hpp
            have hw := processPage_wellKeyed env cur minAge target offset
              ((boxRange env offset scanBatchSize).reverse)
              ((boxRange env offset scanBatchSize).reverse) buckets found hq
            rw [hpp] at hw
            exact ih _ _ _ _ (by simpa only [PageResult.buckets] using hw)
      · exact ih _ _ _ _ hq

/-- C5 (amended): every box emitted by a scan is bucketed under its own
creation height, so a box id — whose fetched box has a single creation
height — never lands under two different height keys; the scanner performs no
deduplication beyond this. -/
theorem scan_buckets_by_creationHeight (env : ScanEnv) (currentHeight minAge : Nat)
    (startOffset : Int) (targetBoxCount fuel : Nat) :
    ∀ h bs, (h, bs) ∈ (scanForEligibleBoxes env currentHeight minAge startOffset
        targetBoxCount fuel).1 → ∀ b ∈ bs, b.creationHeight = h := by
  exact scanLoop_wellKeyed env currentHeight minAge targetBoxCount fuel
    (if startOffset = 0 then 44160000 else startOffset) startOffset [] 0 bucketsWellKeyed_nil

/-- The node box used in the cursor-chaining counterexample: position 2 of the
index, id "2". -/
def c5Box : NodeBox :=
  { boxId := "2", creationHeight := 100, spent := false, value := 10, ergoTree := "",
    assets := [], additionalRegisters := [], encodedSize := 1 }

/-- A node whose box-id index holds positions 0..1001; only the box with id
"2" (position 2) is fetchable and eligible, every other per-box fetch errors
(and is therefore skipped). -/
def c5Env : ScanEnv :=
  { index := (List.range 1002).map (fun i => toString i),
    fetchBox := fun id => if id = "2" then some c5Box else none,
    pageOk := fun _ => true,
    rentFeePerByte := 1, minBoxValuePerByte := 1 }

/-- The EligibleBox the scanner builds from `c5Box`. -/
def c5Eligible : EligibleBox :=
  { boxId := "2", creationHeight := 100, boxSize := 1, value := 10, rentFee := 1,
    status := "pending", ergoTree := "", assets := [], additionalRegisters := [] }

set_option maxRecDepth 100000 in
lemma scanC5_first_eval : scanForEligibleBoxes c5Env 1000 100 2 1 5 = ([(100, [c5Eligible])], 1) :=
  rfl

/-- Witness for the C5 theorem at the concrete scan of `c5Env`. -/
theorem scan_buckets_by_creationHeight_witness :
    c5Eligible.creationHeight = 100 :=
  scan_buckets_by_creationHeight c5Env 1000 100 2 1 5 100 [c5Eligible]
    (by rw [scanC5_first_eval]; exact List.mem_singleton.mpr rfl)
    c5Eligible (List.mem_singleton.mpr rfl)

set_option maxRecDepth 100000 in
/-- C5 counterexample: a scan of `c5Env` from offset 2 buckets box id "2" and
returns nextOffset 1; the chained scan started from that cursor re-emits the
already-bucketed id "2" (`nextOffset = offset - (batchSize - indexOf)` steps
the cursor back over already-processed positions), so cursor-chained scans do
re-emit bucketed ids and nothing deduplicates them. -/
theorem scan_reemits_after_cursor_chain :
    (scanForEligibleBoxes c5Env 1000 100 2 1 5).2 = 1 ∧
    queuedBoxIds (scanForEligibleBoxes c5Env 1000 100 2 1 5).1 = ["2"] ∧
    queuedBoxIds (scanForEligibleBoxes c5Env 1000 100 1 1 5).1 = ["2"] :=
  ⟨rfl, rfl, rfl⟩

/-- C6 (amended): during a scan, a fetch error for a single box id is skipped
and processing continues with the remaining ids of the page; a failure to
fetch a page is likewise caught: the scanner steps the offset (and the
returned cursor candidate) down one page and continues — it neither aborts
the scan attempt nor leaves the cursor unchanged. -/
theorem scan_error_handling (env : ScanEnv) (currentHeight minAge targetBoxCount : Nat)
    (offset nextOffset : Int) (pageIds ids : List String) (boxId : String)
    (buckets : BoxesByHeight) (found fuel : Nat)
    (hbox : env.fetchBox boxId = none)
    (hpage : env.pageOk offset = false)
    (hfound : found < targetBoxCount) :
    processPage env currentHeight minAge targetBoxCount offset pageIds (boxId :: ids) buckets found
      = processPage env currentHeight minAge targetBoxCount offset pageIds ids buckets found ∧
    scanLoop env currentHeight minAge targetBoxCount (fuel + 1) offset nextOffset buckets found
      = scanLoop env currentHeight minAge targetBoxCount fuel (offset - (scanBatchSize : Int))
          (offset - (scanBatchSize : Int)) buckets found := by
  constructor
  · simp [processPage, hbox]
  · have hnot : ¬ targetBoxCount ≤ found := Nat.not_le.mpr hfound
    simp [scanLoop, hpage, hnot]

/-- A node with a one-entry index whose range endpoint fails for offsets above
1000 and whose per-box fetches all fail. -/
def c6Env : ScanEnv :=
  { index := ["x"], fetchBox := fun _ => none, pageOk := fun o => decide (o ≤ 1000),
    rentFeePerByte := 1, minBoxValuePerByte := 1 }

/-- Witness for the C6 theorem at `c6Env`. -/
theorem scan_error_handling_witness :
    c6Env.fetchBox ("y") = none ∧ c6Env.pageOk 1001 = false ∧ 0 < 1 ∧
    (processPage c6Env 1000 100 1 1001 ["y"] (["y"] : List String) [] 0
        = processPage c6Env 1000 100 1 1001 ["y"] ([] : List String) [] 0 ∧
     scanLoop c6Env 1000 100 1 (2 + 1) 1001 1001 [] 0
        = scanLoop c6Env 1000 100 1 2 (1001 - (scanBatchSize : Int))
            (1001 - (scanBatchSize : Int)) [] 0) :=
  ⟨rfl, rfl, by decide,
   scan_error_handling c6Env 1000 100 1 1001 1001 ["y"] [] ("y") [] 0 2 rfl rfl (by decide)⟩

/-- C6 counterexample: with the range endpoint failing at the current offset
1001, the scan attempt is not aborted — it continues at offset 1, finds an
empty page, and returns cursor 1, different from the starting cursor 1001. -/
theorem scan_page_failure_moves_cursor :
    scanForEligibleBoxes c6Env 1000 100 1001 1 3 = ([], 1) :=
  rfl

/-! ## Height-bucket promotion (storageRentBot.runScanAndProcess, eligibility sweep) -/

/-- The eligibility sweep over the queued height buckets: collect the boxes of
every bucket with `currentHeight > height + minAge` (pushed in queue order)
together with the list of heights to remove. -/
def collectEligible (currentHeight minAge : Nat) : BoxesByHeight → List EligibleBox × List Nat
  | [] => ([], [])
  | (h, bs) :: rest =>
    let r := collectEligible currentHeight minAge rest
    if h + minAge < currentHeight then (bs ++ r.1, h :: r.2) else r

/-- Promotion as performed by runScanAndProcess: the eligibility sweep followed
by deletion of the promoted height keys from the queue. -/
def promoteEligible (queue : BoxesByHeight) (currentHeight minAge : Nat) :
    List EligibleBox × BoxesByHeight :=
  let r := collectEligible currentHeight minAge queue
  (r.1, queue.filter (fun p => !(decide (p.1 ∈ r.2))))

lemma mem_collectEligible_fst (currentHeight minAge : Nat) (queue : BoxesByHeight)
    (b : EligibleBox) :
    b ∈ (collectEligible currentHeight minAge queue).1
      ↔ ∃ h bs, (h, bs) ∈ queue ∧ b ∈ bs ∧ h + minAge < currentHeight := by
  induction queue with
  | nil => simp [collectEligible]
  | cons hd tl ih =>
    obtain ⟨h1, bs1⟩ := hd
    by_cases hc : h1 + minAge < currentHeight
    · simp only [collectEligible, if_pos hc, List.mem_append, ih]
      constructor
      · rintro (hin | ⟨h2, bs2, hmem, hb, hlt⟩)
        · exact ⟨h1, bs1, List.mem_cons_self _ _, hin, hc⟩
        · exact ⟨h2, bs2, List.mem_cons_of_mem _ hmem, hb, hlt⟩
      · rintro ⟨h2, bs2, hmem, hb, hlt⟩
        rcases List.mem_cons.mp hmem with hhead | htail
        · obtain ⟨rfl, rfl⟩ := Prod.mk.injEq .. ▸ hhead
          exact Or.inl hb
        · exact Or.inr ⟨h2, bs2, htail, hb, hlt⟩
    · simp only [collectEligible, if_neg hc, ih]
      constructor
      · rintro ⟨h2, bs2, hmem, hb, hlt⟩
        exact ⟨h2, bs2, List.mem_cons_of_mem _ hmem, hb, hlt⟩
      · rintro ⟨h2, bs2, hmem, hb, hlt⟩
        rcases List.mem_cons.mp hmem with hhead | htail
        · obtain ⟨rfl, rfl⟩ := Prod.mk.injEq .. ▸ hhead
          exact absurd hlt hc
        · exact ⟨h2, bs2, htail, hb, hlt⟩

lemma mem_collectEligible_snd (currentHeight minAge : Nat) (queue : BoxesByHeight) (h : Nat) :
    h ∈ (collectEligible currentHeight minAge queue).2
      ↔ ∃ bs, (h, bs) ∈ queue ∧ h + minAge < currentHeight := by
  induction queue with
  | nil => simp [collectEligible]
  | cons hd tl ih =>
    obtain ⟨h1, bs1⟩ := hd
    by_cases hc : h1 + minAge < currentHeight
    · simp only [collectEligible, if_pos hc, List.mem_cons, ih, Prod.mk.injEq]
      constructor
      · rintro (rfl | ⟨bs2, hmem, hlt⟩)
        · exact ⟨bs1, Or.inl ⟨rfl, rfl⟩, hc⟩
        · exact ⟨bs2, Or.inr hmem, hlt⟩
      · rintro ⟨bs2, ⟨rfl, rfl⟩ | htail, hlt⟩
        · exact Or.inl rfl
        · exact Or.inr ⟨bs2, htail, hlt⟩
    · simp only [collectEligible, if_neg hc, ih, List.mem_cons, Prod.mk.injEq]
      constructor
      · rintro ⟨bs2, hmem, hlt⟩
        exact ⟨bs2, Or.inr hmem, hlt⟩
      · rintro ⟨bs2, ⟨rfl, rfl⟩ | htail, hlt⟩
        · exact absurd hlt hc
        · exact ⟨bs2, htail, hlt⟩

/-- C3: promotion moves a box to the claimable output exactly when its bucket
height satisfies `height + minAgeBlocks < currentHeight` (strict), and a
bucket entry survives in the queue exactly when it does not satisfy the strict
inequality — promoted buckets are emptied wholesale and deleted. -/
theorem promote_strict_boundary (queue : BoxesByHeight) (currentHeight minAge : Nat) :
    (∀ b, b ∈ (promoteEligible queue currentHeight minAge).1
        ↔ ∃ h bs, (h, bs) ∈ queue ∧ b ∈ bs ∧ h + minAge < currentHeight) ∧
    (∀ h bs, (h, bs) ∈ (promoteEligible queue currentHeight minAge).2
        ↔ (h, bs) ∈ queue ∧ ¬ h + minAge < currentHeight) := by
  constructor
  · intro b
    exact mem_collectEligible_fst currentHeight minAge queue b
  · intro h bs
    simp only [promoteEligible, List.mem_filter, Bool.not_eq_true', decide_eq_false_iff_not]
    constructor
    · rintro ⟨hmem, hcond⟩
      refine ⟨hmem, fun hlt => ?_⟩
      exact hcond ((mem_collectEligible_snd currentHeight minAge queue h).mpr ⟨bs, hmem, hlt⟩)
    · rintro ⟨hmem, hnlt⟩
      refine ⟨hmem, ?_⟩
      intro hin
      obtain ⟨bs2, _, hlt⟩ := (mem_collectEligible_snd currentHeight minAge queue h).mp hin
      exact hnlt hlt

def c3Box : EligibleBox :=
  { boxId := "w", creationHeight := 1000, boxSize := 105, value := 500000000,
    rentFee := 131250000, status := "queued", ergoTree := "t", assets := [],
    additionalRegisters := [] }

/-- Witness for C3: a bucket at height 1000 with minAge 500 is not promoted at
currentHeight 1500 but is promoted at 1501. -/
theorem promote_strict_boundary_witness :
    c3Box ∈ (promoteEligible [(1000, [c3Box])] 1501 500).1 ∧
    (1000, [c3Box]) ∈ (promoteEligible [(1000, [c3Box])] 1500 500).2 :=
  ⟨((promote_strict_boundary [(1000, [c3Box])] 1501 500).1 c3Box).mpr
      ⟨1000, [c3Box], List.mem_singleton.mpr rfl, List.mem_singleton.mpr rfl, by decide⟩,
   ((promote_strict_boundary [(1000, [c3Box])] 1500 500).2 1000 [c3Box]).mpr
      ⟨List.mem_singleton.mpr rfl, by decide⟩⟩

/-! ## Orchestration (storageRentBot.runScanAndProcess / processEligibleBoxes) -/

/-- The per-cycle result summary (types.ProcessingResult). -/
structure ProcessingResult where
  processedBoxes : Nat
  successfulTransactions : Nat
  failedTransactions : Nat
  totalRentCollected : Int
  totalFeesPaid : Int
  errors : List String
deriving DecidableEq, Repr

def emptyProcessingResult : ProcessingResult :=
  { processedBoxes := 0, successfulTransactions := 0, failedTransactions := 0,
    totalRentCollected := 0, totalFeesPaid := 0, errors := [] }

/-- Accumulation of a batch result into the running totals (the `result.x += batchResult.x`
block of processEligibleBoxes). -/
def addResult (a b : ProcessingResult) : ProcessingResult :=
  { processedBoxes := a.processedBoxes + b.processedBoxes,
    successfulTransactions := a.successfulTransactions + b.successfulTransactions,
    failedTransactions := a.failedTransactions + b.failedTransactions,
    totalRentCollected := a.totalRentCollected + b.totalRentCollected,
    totalFeesPaid := a.totalFeesPaid + b.totalFeesPaid,
    errors := a.errors ++ b.errors }

/-- ergoNode.validateBoxes: the stub that, without consulting the ledger,
reports every id valid ("Simplified validation - assume all boxes are valid
for now"). -/
structure BoxValidation where
  valid : List String
  invalid : List String
deriving DecidableEq, Repr

def validateBoxes (boxIds : List String) : BoxValidation :=
  { valid := boxIds, invalid := [] }

/-- transactionService.createTransactionBatches: slice the boxes into chunks
of `maxBoxesPerTx`, preserving order.  The structural fuel is the list length,
which bounds the number of slices. -/
def createTransactionBatchesGo (maxBoxesPerTx : Nat) : Nat → List EligibleBox → List (List EligibleBox)
  | _, [] => []
  | 0, _ => []
  | fuel + 1, b :: rest =>
    ((b :: rest).take maxBoxesPerTx)
      :: createTransactionBatchesGo maxBoxesPerTx fuel (rest.drop (maxBoxesPerTx - 1))

def createTransactionBatches (maxBoxesPerTx : Nat) (boxes : List EligibleBox) :
    List (List EligibleBox) :=
  createTransactionBatchesGo maxBoxesPerTx boxes.length boxes

/-- The collaborator outcomes a cycle can observe.  `getCurrentHeight` and
`scanOutcome` model node calls that may throw; `getBoxById` is the per-box
node lookup used during transaction construction; `signSubmit` is the
fromUnsigned outcome per 1-based batch index (`none` models the
null-transaction-id failure). -/
structure CycleEnv where
  getCurrentHeight : Except String Nat
  scanOutcome : Int → Except String (BoxesByHeight × Int)
  getBoxById : String → Bool
  signSubmit : Nat → Option String
  dryRun : Bool
  transactionFee : Int
  networkFee : Int
  maxBoxesPerTx : Nat
  minStorageRentAgeBlocks : Nat
  walletAddress : String

/-- The bot's in-memory scan/queue state. -/
structure BotState where
  lastQueueScanHeight : Nat
  queuedBoxesByHeight : BoxesByHeight
  lastSearchOffset : Int
deriving Repr

/-- The error strings thrown by buildStorageRentTransaction. -/
def BuildError.message : BuildError → String
  | .boxNotFound boxId => "Failed to create Fleet SDK input for " ++ boxId
  | .insufficientFeeAvailable => "Insufficient fee available from claimed boxes"
  | .insufficientRent => "Not enough rent collected to pay transaction fee"

/-- The result recorded when a batch fails: one failed transaction and a
"Batch i failed: ..." error string (the catch branch of processBatch). -/
def batchFailure (batchIndex : Nat) (msg : String) : ProcessingResult :=
  { emptyProcessingResult with
    failedTransactions := 1
    errors := ["Batch " ++ toString batchIndex ++ " failed: " ++ msg] }

/-- storageRentBot.processBatch: build, validate, then (dry-run or) sign and
submit; every failure is caught and turned into a batchFailure result. -/
def processBatch (env : CycleEnv) (boxes : List EligibleBox) (batchIndex : Nat) : ProcessingResult :=
  match env.getCurrentHeight with
  | .error e => batchFailure batchIndex e
  | .ok currentHeight =>
    match buildStorageRentTransaction env.getBoxById env.networkFee boxes env.walletAddress currentHeight with
    | .error e => batchFailure batchIndex e.message
    | .ok tx =>
      if boxes.length = 0 then
        batchFailure batchIndex ("Transaction validation failed: No boxes to process")
      else if env.dryRun then
        { emptyProcessingResult with
          processedBoxes := boxes.length
          successfulTransactions := 1
          totalRentCollected := tx.totalRentCollected
          totalFeesPaid := env.transactionFee }
      else
        match env.signSubmit batchIndex with
        | none => batchFailure batchIndex ("Failed to sign and submit transaction")
        | some _txId =>
          { emptyProcessingResult with
            processedBoxes := boxes.length
            successfulTransactions := 1
            totalRentCollected := tx.totalRentCollected
            totalFeesPaid := env.transactionFee }

/-- The batch loop of processEligibleBoxes: skip empty batches, accumulate
each batch's result (batch indices are 1-based). -/
def processBatches (env : CycleEnv) : List (List EligibleBox) → Nat → ProcessingResult
  | [], _ => emptyProcessingResult
  | batch :: rest, i =>
    if batch.length = 0 then processBatches env rest (i + 1)
    else addResult (processBatch env batch (i + 1)) (processBatches env rest (i + 1))

/-- storageRentBot.processEligibleBoxes: persist (modelled as a no-op), run the
validateBoxes stub, filter to the ids it reports valid, slice into batches and
process them; total — every per-batch failure is recorded, not thrown. -/
def processEligibleBoxes (env : CycleEnv) (eligibleBoxes : List EligibleBox) : ProcessingResult :=
  if eligibleBoxes.length = 0 then emptyProcessingResult
  else
    let validation := validateBoxes (eligibleBoxes.map (fun b => b.boxId))
    let validBoxes := eligibleBoxes.filter (fun b => validation.valid.contains b.boxId)
    if validBoxes.length = 0 then emptyProcessingResult
    else processBatches env (createTransactionBatches env.maxBoxesPerTx validBoxes) 0

/-- Merging one scanned bucket into the queue: `Map.get(height).push(...boxes)`,
creating the bucket at the end when the key is new. -/
def bucketAddAll : BoxesByHeight → Nat → List EligibleBox → BoxesByHeight
  | [], h, bs => [(h, bs)]
  | (h2, bs2) :: rest, h, bs =>
    if h2 = h then (h2, bs2 ++ bs) :: rest else (h2, bs2) :: bucketAddAll rest h bs

/-- The merge loop of runScanAndProcess (lines 179-184). -/
def mergeQueues (queue newBuckets : BoxesByHeight) : BoxesByHeight :=
  newBuckets.foldl (fun acc p => bucketAddAll acc p.1 p.2) queue

/-- storageRentBot.runScanAndProcess: fetch the height; when 50 or more blocks
have passed since the last queue scan, run the scan and merge its buckets;
promote eligible buckets; process the newly eligible boxes.  The final catch
block of the source logs and rethrows, so a failing height fetch or scan
propagates as `Except.error`. -/
def runScanAndProcess (env : CycleEnv) (st : BotState) :
    Except String (ProcessingResult × BotState) :=
  match env.getCurrentHeight with
  | .error e => .error e
  | .ok currentHeight =>
    match (if st.lastQueueScanHeight + 50 ≤ currentHeight
           then (env.scanOutcome st.lastSearchOffset).map (fun r => some r)
           else .ok none) with
    | .error e => .error e
    | .ok oscan =>
      let st1 : BotState :=
        match oscan with
        | none => st
        | some (boxesByHeight, nextOffset) =>
          { lastQueueScanHeight := currentHeight,
            queuedBoxesByHeight := mergeQueues st.queuedBoxesByHeight boxesByHeight,
            lastSearchOffset := nextOffset }
      let pr := promoteEligible st1.queuedBoxesByHeight currentHeight env.minStorageRentAgeBlocks
      let st2 : BotState := { st1 with queuedBoxesByHeight := pr.2 }
      if pr.1.length = 0 then .ok (emptyProcessingResult, st2)
      else .ok (processEligibleBoxes env pr.1, st2)

/-- C4 (amended): the cycle returns a result summary whenever its top-level
collaborator calls succeed — the height fetch and, when a scan is due, the
scan; per-batch and signing failures are caught inside processEligibleBoxes
and recorded in the summary's error list.  (A top-level failure, by contrast,
is rethrown past the orchestrator boundary; see the counterexample.) -/
theorem runScanAndProcess_ok_of_collaborators (env : CycleEnv) (st : BotState) (h : Nat)
    (hh : env.getCurrentHeight = .ok h)
    (hs : ∀ off, ∃ r, env.scanOutcome off = .ok r) :
    ∃ out, runScanAndProcess env st = .ok out := by
  by_cases hdue : st.lastQueueScanHeight + 50 ≤ h
  · obtain ⟨r, hr⟩ := hs st.lastSearchOffset
    obtain ⟨bh, no⟩ := r
    unfold runScanAndProcess
    rw [hh]
    dsimp only
    rw [if_pos hdue, hr]
    dsimp only [Except.map]
    split
    · exact ⟨_, rfl⟩
    · exact ⟨_, rfl⟩
  · unfold runScanAndProcess
    rw [hh]
    dsimp only
    rw [if_neg hdue]
    dsimp only
    split
    · exact ⟨_, rfl⟩
    · exact ⟨_, rfl⟩

def c4Env : CycleEnv :=
  { getCurrentHeight := .error ("Failed to get current height: node unreachable"),
    scanOutcome := fun _ => .ok ([], 0), getBoxById := fun _ => true,
    signSubmit := fun _ => none, dryRun := false, transactionFee := 1000000,
    networkFee := 1100000, maxBoxesPerTx := 50, minStorageRentAgeBlocks := 500,
    walletAddress := "addr" }

def c4State : BotState :=
  { lastQueueScanHeight := 0, queuedBoxesByHeight := [], lastSearchOffset := 0 }

/-- C4 counterexample: when the height fetch throws, the cycle does not return
a result summary — runScanAndProcess logs and rethrows, so the error
propagates past the orchestrator boundary. -/
theorem runScanAndProcess_rethrows :
    runScanAndProcess c4Env c4State
      = .error ("Failed to get current height: node unreachable") :=
  rfl

def c4GoodEnv : CycleEnv := { c4Env with getCurrentHeight := .ok 1000 }

/-- Witness for the amended C4 theorem: with a healthy node the cycle returns
a summary. -/
theorem runScanAndProcess_ok_witness :
    c4GoodEnv.getCurrentHeight = .ok 1000 ∧
    ∃ out, runScanAndProcess c4GoodEnv c4State = .ok out :=
  ⟨rfl, runScanAndProcess_ok_of_collaborators c4GoodEnv c4State 1000 rfl
      (fun _ => ⟨([], 0), rfl⟩)⟩

def c9SpentBox : EligibleBox :=
  { boxId := "s", creationHeight := 100, boxSize := 105, value := 500000000,
    rentFee := 131250000, status := "pending", ergoTree := "t", assets := [],
    additionalRegisters := [] }

/-- A cycle environment whose ledger reports every box as spent/absent
(`getBoxById` always null). -/
def c9Env : CycleEnv :=
  { getCurrentHeight := .ok 1000, scanOutcome := fun _ => .ok ([], 0),
    getBoxById := fun _ => false, signSubmit := fun _ => none, dryRun := false,
    transactionFee := 1000000, networkFee := 1100000, maxBoxesPerTx := 50,
    minStorageRentAgeBlocks := 500, walletAddress := "addr" }

/-- C9: the revalidation step is a stub — validateBoxes marks a spent box
valid without consulting the ledger, the spent box reaches batch construction,
and the whole batch fails with the box-not-found error instead of the box
being dropped and the batch rebuilt without it. -/
theorem validateBoxes_passes_spent_box :
    validateBoxes [c9SpentBox.boxId] = { valid := [c9SpentBox.boxId], invalid := [] } ∧
    (processEligibleBoxes c9Env [c9SpentBox]).failedTransactions = 1 ∧
    (processEligibleBoxes c9Env [c9SpentBox]).errors
      = ["Batch 1 failed: Failed to create Fleet SDK input for s"] :=
  ⟨rfl, rfl, rfl⟩

/-! ## Confirmation monitoring (storageRentBot.monitorTransactionConfirmation) -/

/-- Outcome of one confirmation poll: confirmed, not confirmed, or the check
threw (which the source catches, logs, and treats like not-confirmed). -/
inductive PollOutcome where
  | confirmed
  | notConfirmed
  | errored
deriving DecidableEq, Repr

/-- The transaction status written to the database together with the number of
polls performed. -/
structure MonitorResult where
  status : String
  attemptsUsed : Nat
deriving DecidableEq, Repr

/-- The attempt loop of monitorTransactionConfirmation: attempts count from 1;
the first confirmed poll writes status "confirmed" and stops; when the
attempts are exhausted the transaction is marked "failed". -/
def monitorFrom (poll : Nat → PollOutcome) : Nat → Nat → MonitorResult
  | attempt, 0 => { status := "failed", attemptsUsed := attempt - 1 }
  | attempt, remaining + 1 =>
    match poll attempt with
    | .confirmed => { status := "confirmed", attemptsUsed := attempt }
    | _ => monitorFrom poll (attempt + 1) remaining

/-- storageRentBot.monitorTransactionConfirmation; the source hard-codes
`maxAttempts = 20` (and a 30s interval, not modelled beyond poll counting). -/
def monitorTransactionConfirmation (poll : Nat → PollOutcome) (maxAttempts : Nat) :
    MonitorResult :=
  monitorFrom poll 1 maxAttempts

lemma monitorFrom_attempts_le (poll : Nat → PollOutcome) :
    ∀ (remaining attempt : Nat),
      (monitorFrom poll attempt remaining).attemptsUsed ≤ attempt - 1 + remaining := by
  intro remaining
  induction remaining with
  | zero =>
    intro attempt
    simp [monitorFrom]
  | succ r ih =>
    intro attempt
    simp only [monitorFrom]
    cases hp : poll attempt with
    | confirmed => simp only; omega
    | notConfirmed =>
      simp only
      have := ih (attempt + 1)
      omega
    | errored =>
      simp only
      have := ih (attempt + 1)
      omega

lemma monitorFrom_first_confirmed (poll : Nat → PollOutcome) :
    ∀ (remaining attempt k : Nat), k < remaining → poll (attempt + k) = .confirmed →
      (∀ j, j < k → poll (attempt + j) ≠ .confirmed) →
      monitorFrom poll attempt remaining
        = { status := "confirmed", attemptsUsed := attempt + k } := by
  intro remaining
  induction remaining with
  | zero =>
    intro attempt k hk
    exact absurd hk (Nat.not_lt_zero k)
  | succ r ih =>
    intro attempt k hk hconf hmin
    cases k with
    | zero =>
      rw [Nat.add_zero] at hconf
      simp only [monitorFrom, hconf, Nat.add_zero]
    | succ k2 =>
      have h0 : poll attempt ≠ .confirmed := by
        have := hmin 0 (Nat.succ_pos k2)
        simpa using this
      have harg : attempt + 1 + k2 = attempt + (k2 + 1) := by omega
      have hrec : monitorFrom poll (attempt + 1) r
          = { status := "confirmed", attemptsUsed := attempt + (k2 + 1) } := by
        have := ih (attempt + 1) k2 (by omega)
          (by rw [harg]; exact hconf)
          (fun j hj => by
            rw [show attempt + 1 + j = attempt + (j + 1) from by omega]
            exact hmin (j + 1) (by omega))
        rw [this, harg]
      simp only [monitorFrom]
      cases hp : poll attempt with
      | confirmed => exact absurd hp h0
      | notConfirmed => simpa using hrec
      | errored => simpa using hrec

lemma monitorFrom_no_confirm (poll : Nat → PollOutcome) :
    ∀ (remaining attempt : Nat), (∀ k, k < remaining → poll (attempt + k) ≠ .confirmed) →
      (monitorFrom poll attempt remaining).status = "failed" := by
  intro remaining
  induction remaining with
  | zero =>
    intro attempt _
    rfl
  | succ r ih =>
    intro attempt hmin
    simp only [monitorFrom]
    cases hp : poll attempt with
    | confirmed => exact absurd hp (by simpa using hmin 0 (Nat.succ_pos r))
    | notConfirmed =>
      exact ih (attempt + 1) (fun k hk => by
        rw [show attempt + 1 + k = attempt + (k + 1) from by omega]
        exact hmin (k + 1) (by omega))
    | errored =>
      exact ih (attempt + 1) (fun k hk => by
        rw [show attempt + 1 + k = attempt + (k + 1) from by omega]
        exact hmin (k + 1) (by omega))

/-- C8: the confirmation monitor polls at most maxAttempts times; the first
confirmed poll sets status "confirmed" with that attempt count and stops; if
every attempt reports not-confirmed the status becomes "failed". -/
theorem monitor_bounded_and_transitions (poll : Nat → PollOutcome) (maxAttempts : Nat) :
    (monitorTransactionConfirmation poll maxAttempts).attemptsUsed ≤ maxAttempts ∧
    (∀ i, 1 ≤ i → i ≤ maxAttempts → poll i = .confirmed →
        (∀ j, 1 ≤ j → j < i → poll j ≠ .confirmed) →
        monitorTransactionConfirmation poll maxAttempts
          = { status := "confirmed", attemptsUsed := i }) ∧
    ((∀ i, 1 ≤ i → i ≤ maxAttempts → poll i ≠ .confirmed) →
        (monitorTransactionConfirmation poll maxAttempts).status = "failed") := by
  refine ⟨?_, ?_, ?_⟩
  · have h := monitorFrom_attempts_le poll maxAttempts 1
    rw [monitorTransactionConfirmation]
    omega
  · intro i h1 h2 hconf hmin
    have hpc : poll (1 + (i - 1)) = .confirmed := by
      rw [show 1 + (i - 1) = i from by omega]
      exact hconf
    have hm : ∀ j, j < i - 1 → poll (1 + j) ≠ .confirmed := by
      intro j hj
      exact hmin (1 + j) (by omega) (by omega)
    have h := monitorFrom_first_confirmed poll maxAttempts 1 (i - 1) (by omega) hpc hm
    rw [monitorTransactionConfirmation, h, show 1 + (i - 1) = i from by omega]
  · intro hnone
    exact monitorFrom_no_confirm poll maxAttempts 1
      (fun k hk => hnone (1 + k) (by omega) (by omega))

def c8Poll : Nat → PollOutcome := fun i => if i = 3 then .confirmed else .notConfirmed

/-- Witness for C8: with the default 20 attempts and a poll that first
confirms at attempt 3, the monitor stops there with status "confirmed"; a
never-confirming poll ends with status "failed". -/
theorem monitor_bounded_and_transitions_witness :
    (1 ≤ 3 ∧ 3 ≤ 20 ∧ c8Poll 3 = .confirmed) ∧
    monitorTransactionConfirmation c8Poll 20 = { status := "confirmed", attemptsUsed := 3 } ∧
    (monitorTransactionConfirmation (fun _ => .notConfirmed) 20).status = "failed" :=
  ⟨⟨by omega, by omega, rfl⟩,
   (monitor_bounded_and_transitions c8Poll 20).2.1 3 (by omega) (by omega) rfl
     (by intro j h1 h2; interval_cases j <;> decide),
   (monitor_bounded_and_transitions (fun _ => .notConfirmed) 20).2.2
     (fun i _ _ => by simp)⟩

/-! ## Sign and submit (transactionService.fromUnsigned) -/

/-- The outcomes of the steps inside fromUnsigned's try block:
UnsignedTransaction.from_json, ErgoBoxes.from_boxes_json, signTx, sendTx.
A `false` / `none` models the step throwing. -/
structure SignSubmitEnv where
  parseTx : Bool
  parseInputs : Bool
  signTx : Option String
  sendTx : Option String
deriving DecidableEq, Repr

/-- transactionService.fromUnsigned: run the parse/sign/send pipeline inside a
try; any failure is caught and `[null, null]` is returned; on success the
transaction id is returned with the signed transaction JSON. -/
def fromUnsigned (env : SignSubmitEnv) : Option String × Option String :=
  if env.parseTx = false then (none, none)
  else if env.parseInputs = false then (none, none)
  else
    match env.signTx with
    | none => (none, none)
    | some signedTx =>
      match env.sendTx with
      | none => (none, none)
      | some txId => (some txId, some signedTx)

/-- C10: fromUnsigned never throws — every outcome is either the pair
`[null, null]` (on any parsing, signing, or broadcast failure) or a non-null
transaction id paired with the signed transaction (exactly when every step
succeeds). -/
theorem fromUnsigned_never_throws (env : SignSubmitEnv) :
    (fromUnsigned env = (none, none)
        ∨ ∃ txId signedTx, fromUnsigned env = (some txId, some signedTx)) ∧
    ((env.parseTx = false ∨ env.parseInputs = false ∨ env.signTx = none ∨ env.sendTx = none) →
        fromUnsigned env = (none, none)) ∧
    (∀ txId signedTx, env.parseTx = true → env.parseInputs = true →
        env.signTx = some signedTx → env.sendTx = some txId →
        fromUnsigned env = (some txId, some signedTx)) := by
  obtain ⟨pt, pi, st, sd⟩ := env
  refine ⟨?_, ?_, ?_⟩
  · cases pt <;> cases pi <;> cases st <;> cases sd <;>
      simp [fromUnsigned]
  · rintro (h | h | h | h) <;>
      cases pt <;> cases pi <;> cases st <;> cases sd <;>
        simp_all [fromUnsigned]
  · rintro txId signedTx rfl rfl rfl rfl
    rfl

/-- Witness for C10 at concrete step outcomes. -/
theorem fromUnsigned_never_throws_witness :
    fromUnsigned { parseTx := true, parseInputs := true,
                   signTx := some ("sig"), sendTx := some ("tx") }
      = (some ("tx"), some ("sig")) ∧
    fromUnsigned { parseTx := true, parseInputs := true,
                   signTx := none, sendTx := some ("tx") }
      = (none, none) :=
  ⟨(fromUnsigned_never_throws _).2.2 ("tx") ("sig") rfl rfl rfl rfl,
   (fromUnsigned_never_throws _).2.1 (Or.inr (Or.inr (Or.inl rfl)))⟩
